import Mathlib

/-!
Verification development for the data-access layer and the "Rewolucja AI"
market-scanning state machine of the analizator-nasdaq repository.

The Python sources are shallowly embedded:

* `data_fetcher.DataFetcher._wait_if_needed` (rate limiter, lines 55-68):
  `rlPrune`, `rlCapacity`, `waitLoop`, `rlStep`, `rlRun`.
* `data_fetcher.DataFetcher.get_data` (cache + retry envelope, lines 70-134):
  `cacheKey`, `getData`, `attemptLoop` over an explicit environment of
  network results and clock readings.
* `utils.safe_float`, `utils.get_latest_value`.
* `selection_agent` (agents and `run_revolution_step`).
* `portfolio_manager.PortfolioManager` (revolution state machine).

Machine floats are modelled as rationals, Python `time.time()` readings as
integers drawn from an explicit clock stream, and fallible operations return
`Option`/`Except`.
-/

/-- `requests_per_minute` field of `DataFetcher.__init__` (data_fetcher.py line 51). -/
def requests_per_minute : ℕ := 75

/-- The pruning loop of `_wait_if_needed` (data_fetcher.py lines 60-61): pop
timestamps from the front of the queue while they satisfy `ts <= now - 60`. -/
def rlPrune (q : List ℤ) (now : ℤ) : List ℤ :=
  q.dropWhile (fun t => decide (t ≤ now - 60))

/-- The capacity check of `_wait_if_needed` (data_fetcher.py line 63): after
pruning, the caller may proceed iff fewer than `requests_per_minute` timestamps
remain in the trailing 60-second window. -/
def rlCapacity (q : List ℤ) (now : ℤ) : Bool :=
  decide ((rlPrune q now).length < requests_per_minute)

/-- The blocking loop of `_wait_if_needed` (data_fetcher.py lines 57-68): read
the clock, prune, break when capacity is available, otherwise sleep and
recheck.  The sleep is represented by advancing the clock-stream index; `fuel`
bounds the number of iterations (the Python loop runs until capacity opens). -/
def waitLoop (clock : ℕ → ℤ) : ℕ → ℕ → List ℤ → Option (ℕ × List ℤ)
  | 0, _, _ => none
  | fuel + 1, k, q =>
    let now := clock k
    let q2 := rlPrune q now
    if q2.length < requests_per_minute then some (k + 1, q2)
    else waitLoop clock fuel (k + 1) q2

/-- One gated call of the rate limiter: the capacity check of
`_wait_if_needed` followed by the timestamp append performed by `get_data`
once the call proceeds, both taken at the time `t` at which the caller was let
through.  Returns `none` when the gate blocks at `t`. -/
def rlStep (q : List ℤ) (t : ℤ) : Option (List ℤ) :=
  let q2 := rlPrune q t
  if q2.length < requests_per_minute then some (q2 ++ [t]) else none

/-- A run of the rate limiter: each listed time is a moment at which a call
passed the capacity check and was recorded.  `none` when some call proceeded
while the gate was blocking. -/
def rlRun : List ℤ → List ℤ → Option (List ℤ)
  | q, [] => some q
  | q, t :: ts =>
    match rlStep q t with
    | some q2 => rlRun q2 ts
    | none => none

/-- Number of recorded calls inside the sliding window `(w, w + 60]`. -/
def windowCount (calls : List ℤ) (w : ℤ) : ℕ :=
  calls.countP (fun t => decide (w < t ∧ t ≤ w + 60))

lemma dropWhile_le_eq_filter (c : ℤ) :
    ∀ (l : List ℤ), l.Sorted (· ≤ ·) →
      l.dropWhile (fun t => decide (t ≤ c)) = l.filter (fun t => decide (c < t))
  | [], _ => rfl
  | a :: l, h => by
    rcases List.sorted_cons.mp h with ⟨ha, hl⟩
    by_cases hac : a ≤ c
    · rw [List.dropWhile_cons_of_pos (by simpa using hac),
        List.filter_cons_of_neg (by simpa using hac)]
      exact dropWhile_le_eq_filter c l hl
    · push_neg at hac
      rw [List.dropWhile_cons_of_neg (by simpa using hac),
        List.filter_cons_of_pos (by simpa using hac)]
      refine congrArg (a :: ·) ?_
      exact (List.filter_eq_self.mpr (fun x hx => by
        simpa using lt_of_lt_of_le hac (ha x hx))).symm

lemma rlPrune_eq_filter (q : List ℤ) (now : ℤ) (h : q.Sorted (· ≤ ·)) :
    rlPrune q now = q.filter (fun t => decide (now - 60 < t)) := by
  unfold rlPrune
  have := dropWhile_le_eq_filter (now - 60) q h
  simpa using this

lemma rlRun_append (q : List ℤ) (l₁ l₂ : List ℤ) :
    rlRun q (l₁ ++ l₂) =
      match rlRun q l₁ with
      | some q2 => rlRun q2 l₂
      | none => none := by
  induction l₁ generalizing q with
  | nil => rfl
  | cons t ts ih =>
    cases h : rlStep q t with
    | none => simp [rlRun, h]
    | some q2 => simp [rlRun, h, ih q2]

lemma filter_absorb_lower (l : List ℤ) (c d : ℤ) (hcd : c ≤ d) :
    (l.filter (fun t => decide (c < t))).filter (fun t => decide (d < t)) =
      l.filter (fun t => decide (d < t)) := by
  rw [List.filter_filter]
  refine List.filter_congr (fun x _ => ?_)
  by_cases hx : d < x
  · have : c < x := lt_of_le_of_lt hcd hx
    simp [hx, this]
  · simp [hx]

/-- Queue characterization: after a successful run ending with a call at time
`t` over a time-sorted call list, the retained queue is exactly the set of
calls younger than 60 seconds relative to `t`. -/
lemma rlRun_queue_eq : ∀ (calls : List ℤ) (t : ℤ) (q : List ℤ),
    (calls ++ [t]).Sorted (· ≤ ·) →
    rlRun [] (calls ++ [t]) = some q →
    q = (calls ++ [t]).filter (fun s => decide (t - 60 < s)) := by
  intro calls
  induction calls using List.reverseRecOn with
  | nil =>
    intro t q _ hrun
    simp only [List.nil_append] at hrun ⊢
    have hcalc : rlRun [] [t] = some [t] := by
      simp [rlRun, rlStep, rlPrune, requests_per_minute]
    rw [hcalc] at hrun
    cases hrun
    have hdec : decide (t - 60 < t) = true := by
      simp only [decide_eq_true_eq]; omega
    simp [List.filter, hdec]
  | append_singleton pref s ih =>
    intro t q hsorted hrun
    rw [rlRun_append] at hrun
    cases hq1 : rlRun [] (pref ++ [s]) with
    | none => rw [hq1] at hrun; cases hrun
    | some q1 =>
      rw [hq1] at hrun
      have hsorted1 : (pref ++ [s]).Sorted (· ≤ ·) :=
        List.Pairwise.sublist (List.sublist_append_left _ _) hsorted
      have hst : s ≤ t := by
        have := (List.pairwise_append.mp hsorted).2.2
        exact this s (by simp) t (by simp)
      have hq1eq : q1 = (pref ++ [s]).filter (fun x => decide (s - 60 < x)) :=
        ih s q1 hsorted1 hq1
      have hq1sorted : q1.Sorted (· ≤ ·) := by
        rw [hq1eq]; exact List.Sorted.filter _ hsorted1
      cases hstep : rlStep q1 t with
      | none => simp [rlRun, hstep] at hrun
      | some q2 =>
        have hq : q2 = q := by simpa [rlRun, hstep] using hrun
        simp only [rlStep] at hstep
        by_cases hgate : (rlPrune q1 t).length < requests_per_minute
        · rw [if_pos hgate] at hstep
          have hq2 : rlPrune q1 t ++ [t] = q2 := by
            injection hstep
          rw [← hq, ← hq2, rlPrune_eq_filter q1 t hq1sorted, hq1eq,
            filter_absorb_lower _ _ _ (by omega)]
          have hdec : decide (t - 60 < t) = true := by
            simp only [decide_eq_true_eq]; omega
          have hft : List.filter (fun x => decide (t - 60 < x)) [t] = [t] := by
            simp only [List.filter, hdec]
          rw [List.filter_append (pref ++ [s]) [t], hft]
        · rw [if_neg hgate] at hstep
          cases hstep

/-- Gate extraction: in a successful sorted run, every call `t` found fewer
than `requests_per_minute` prior calls younger than 60 seconds. -/
lemma rlRun_gate (pref : List ℤ) (t : ℤ) (rest : List ℤ) (q : List ℤ)
    (hsorted : (pref ++ t :: rest).Sorted (· ≤ ·))
    (hrun : rlRun [] (pref ++ t :: rest) = some q) :
    (pref.filter (fun x => decide (t - 60 < x))).length < requests_per_minute := by
  rw [rlRun_append] at hrun
  cases hq1 : rlRun [] pref with
  | none => rw [hq1] at hrun; cases hrun
  | some q1 =>
    rw [hq1] at hrun
    have hprefsorted : pref.Sorted (· ≤ ·) :=
      List.Pairwise.sublist (List.sublist_append_left _ _) hsorted
    cases hstep : rlStep q1 t with
    | none => simp [rlRun, hstep] at hrun
    | some q2 =>
      simp only [rlStep] at hstep
      by_cases hgate : (rlPrune q1 t).length < requests_per_minute
      · -- translate the gate on the queue into a gate on the full prefix
        rcases List.eq_nil_or_concat pref with hnil | ⟨pref0, s, hconcat⟩
        · subst hnil
          have hq1nil : q1 = [] := by
            rw [show rlRun ([] : List ℤ) [] = some [] from rfl] at hq1
            injection hq1 with h
            exact h.symm
          subst hq1nil
          simpa using hgate
        · rw [List.concat_eq_append] at hconcat
          subst hconcat
          have hq1eq : q1 = (pref0 ++ [s]).filter (fun x => decide (s - 60 < x)) :=
            rlRun_queue_eq pref0 s q1 hprefsorted hq1
          have hq1sorted : q1.Sorted (· ≤ ·) := by
            rw [hq1eq]; exact List.Sorted.filter _ hprefsorted
          have hst : s ≤ t := by
            have := (List.pairwise_append.mp hsorted).2.2
            exact this s (by simp) t (by simp)
          rw [rlPrune_eq_filter q1 t hq1sorted, hq1eq,
            filter_absorb_lower _ _ _ (by omega)] at hgate
          exact hgate
      · rw [if_neg hgate] at hstep
        cases hstep

/-- C1 main part: recorded calls never exceed `requests_per_minute` within any
sliding 60-second window, for every valid (gate-respecting, time-ordered)
pattern of calls. -/
lemma rlRun_window_bound : ∀ (calls : List ℤ) (q : List ℤ),
    calls.Sorted (· ≤ ·) → rlRun [] calls = some q →
    ∀ w : ℤ, windowCount calls w ≤ requests_per_minute := by
  intro calls
  induction calls using List.reverseRecOn with
  | nil =>
    intro q _ _ w
    simp [windowCount]
  | append_singleton pref t ih =>
    intro q hsorted hrun w
    have hprefsorted : pref.Sorted (· ≤ ·) :=
      List.Pairwise.sublist (List.sublist_append_left _ _) hsorted
    have hq1 : ∃ q1, rlRun [] pref = some q1 := by
      rw [rlRun_append] at hrun
      cases h : rlRun [] pref with
      | none => rw [h] at hrun; cases hrun
      | some q1 => exact ⟨q1, rfl⟩
    rcases hq1 with ⟨q1, hq1⟩
    have ihw := ih q1 hprefsorted hq1
    unfold windowCount
    rw [List.countP_append]
    by_cases hwin : w < t ∧ t ≤ w + 60
    · -- the new call lies in the window: bound the prefix contribution by the gate
      have hgate := rlRun_gate pref t [] q (by simpa using hsorted) (by simpa using hrun)
      have hmono : pref.countP (fun x => decide (w < x ∧ x ≤ w + 60)) ≤
          pref.countP (fun x => decide (t - 60 < x)) := by
        refine List.countP_mono_left (fun x _ hx => ?_)
        have hx2 : w < x ∧ x ≤ w + 60 := by simpa using hx
        simp only [decide_eq_true_eq]
        omega
      have hlen : pref.countP (fun x => decide (t - 60 < x)) < requests_per_minute := by
        rw [List.countP_eq_length_filter]
        exact hgate
      have hsingle : List.countP (fun x => decide (w < x ∧ x ≤ w + 60)) [t] ≤ 1 := by
        simp [List.countP_cons, hwin]
      calc pref.countP (fun x => decide (w < x ∧ x ≤ w + 60)) +
            List.countP (fun x => decide (w < x ∧ x ≤ w + 60)) [t]
          ≤ (requests_per_minute - 1) + 1 := by
            have h1 : pref.countP (fun x => decide (w < x ∧ x ≤ w + 60)) ≤
                requests_per_minute - 1 := by omega
            omega
        _ = requests_per_minute := by simp [requests_per_minute]
    · have hz : List.countP (fun x => decide (w < x ∧ x ≤ w + 60)) [t] = 0 := by
        simp [List.countP_cons, hwin]
      rw [hz]
      simpa [windowCount] using ihw w

/-- C1 blocking part: whenever the pruned queue is full, the capacity check
reports no capacity; and capacity can reopen at a later time only once at
least one of the still-young timestamps has aged out of the trailing window. -/
lemma rlCapacity_blocked_until_aged (q : List ℤ) (now t2 : ℤ)
    (hsorted : q.Sorted (· ≤ ·))
    (hblocked : rlCapacity q now = false)
    (hle : now ≤ t2)
    (hopen : rlCapacity q t2 = true) :
    ∃ s ∈ rlPrune q now, s ≤ t2 - 60 := by
  by_contra hcon
  push_neg at hcon
  have hfull : requests_per_minute ≤ (rlPrune q now).length := by
    have := of_decide_eq_false hblocked
    omega
  have hlt : (rlPrune q t2).length < requests_per_minute := of_decide_eq_true hopen
  have hge : (rlPrune q now).length ≤ (rlPrune q t2).length := by
    rw [rlPrune_eq_filter q now hsorted, rlPrune_eq_filter q t2 hsorted,
      ← List.countP_eq_length_filter, ← List.countP_eq_length_filter]
    refine List.countP_mono_left (fun x hx hxnow => ?_)
    have hxnow2 : now - 60 < x := by simpa using hxnow
    have hxmem : x ∈ rlPrune q now := by
      rw [rlPrune_eq_filter q now hsorted]
      exact List.mem_filter.mpr ⟨hx, by simpa using hxnow2⟩
    have := hcon x hxmem
    simp only [decide_eq_true_eq]
    omega
  omega

/-- The `_wait_if_needed` loop only returns once the capacity check passes:
upon return the retained queue holds fewer than `requests_per_minute`
timestamps. -/
lemma waitLoop_post (clock : ℕ → ℤ) :
    ∀ (fuel k : ℕ) (q : List ℤ) (k2 : ℕ) (q2 : List ℤ),
      waitLoop clock fuel k q = some (k2, q2) →
      q2.length < requests_per_minute := by
  intro fuel
  induction fuel with
  | zero => intro k q k2 q2 h; cases h
  | succ n ih =>
    intro k q k2 q2 h
    unfold waitLoop at h
    by_cases hcap : (rlPrune q (clock k)).length < requests_per_minute
    · simp only [hcap, if_pos] at h
      cases h
      exact hcap
    · simp only [hcap, if_neg] at h
      exact ih (k + 1) (rlPrune q (clock k)) k2 q2 h

/-- C1: the rate limiter never admits more than `requests_per_minute` (75)
recorded calls within any sliding 60-second window, for every time-ordered
call pattern that respects the capacity gate; the capacity check refuses to
let a caller proceed while the pruned queue is full, reopening only after at
least one young timestamp has aged out of the trailing window; and the
`_wait_if_needed` loop returns only with fewer than 75 young timestamps
retained. -/
theorem rate_limiter_sliding_window_c1 :
    (∀ (calls : List ℤ) (q : List ℤ),
      calls.Sorted (· ≤ ·) → rlRun [] calls = some q →
      ∀ w : ℤ, windowCount calls w ≤ requests_per_minute) ∧
    (∀ (q : List ℤ) (now t2 : ℤ),
      q.Sorted (· ≤ ·) → rlCapacity q now = false → now ≤ t2 →
      rlCapacity q t2 = true → ∃ s ∈ rlPrune q now, s ≤ t2 - 60) ∧
    (∀ (clock : ℕ → ℤ) (fuel k : ℕ) (q : List ℤ) (k2 : ℕ) (q2 : List ℤ),
      waitLoop clock fuel k q = some (k2, q2) →
      q2.length < requests_per_minute) :=
  ⟨rlRun_window_bound, rlCapacity_blocked_until_aged, waitLoop_post⟩

/-- Witness for C1 at a concrete run: the two-call pattern `[0, 10]` passes the
gate and indeed stays within the window bound. -/
theorem rate_limiter_sliding_window_c1_witness :
    windowCount [0, 10] 0 ≤ requests_per_minute :=
  rate_limiter_sliding_window_c1.1 [0, 10] [0, 10] (by decide) (by decide) 0

/-!
Cache keys.  `get_data` derives the cache key as
`json.dumps(params, sort_keys=True)` (data_fetcher.py line 82): the request
parameters serialized with their items sorted by key, Python strings comparing
by Unicode code points.  Since that serialization is injective on sorted item
lists, the key is modelled as the item list itself sorted by code-point order
of the keys.
-/

/-- Python string comparison: lexicographic on Unicode code points. -/
def codeLe : List Char → List Char → Bool
  | [], _ => true
  | _ :: _, [] => false
  | a :: as, b :: bs =>
    if a.toNat < b.toNat then true
    else if b.toNat < a.toNat then false
    else codeLe as bs

/-- Strict version of `codeLe`. -/
def codeLt : List Char → List Char → Bool
  | [], [] => false
  | [], _ :: _ => true
  | _ :: _, [] => false
  | a :: as, b :: bs =>
    if a.toNat < b.toNat then true
    else if b.toNat < a.toNat then false
    else codeLt as bs

/-- A request parameter map, in insertion order: pairs of key and value. -/
def Params : Type := List (String × String)

instance : DecidableEq Params := by
  unfold Params
  infer_instance

/-- Item order used by the sorted serialization: compare by key. -/
def paramLe (p q : String × String) : Prop := codeLe p.1.data q.1.data = true

instance : DecidableRel paramLe := fun p q => by
  unfold paramLe
  infer_instance

/-- The canonical cache key of `get_data` (data_fetcher.py line 82): the
request parameters sorted by key. -/
def cacheKey (params : Params) : Params :=
  List.insertionSort paramLe params

lemma codeLe_total : ∀ as bs : List Char, codeLe as bs = true ∨ codeLe bs as = true := by
  intro as
  induction as with
  | nil => intro bs; left; rfl
  | cons a as ih =>
    intro bs
    cases bs with
    | nil => right; rfl
    | cons b bs =>
      by_cases hab : a.toNat < b.toNat
      · left; simp [codeLe, hab]
      · by_cases hba : b.toNat < a.toNat
        · right; simp [codeLe, hba]
        · rcases ih bs with h | h
          · left; simp [codeLe, hab, hba, h]
          · right; simp [codeLe, hab, hba, h]

lemma codeLe_trans : ∀ as bs cs : List Char,
    codeLe as bs = true → codeLe bs cs = true → codeLe as cs = true := by
  intro as
  induction as with
  | nil => intro bs cs _ _; rfl
  | cons a as ih =>
    intro bs cs hab hbc
    cases bs with
    | nil => simp [codeLe] at hab
    | cons b bs =>
      cases cs with
      | nil => simp [codeLe] at hbc
      | cons c cs =>
        simp only [codeLe] at hab hbc ⊢
        by_cases h1 : a.toNat < b.toNat
        · by_cases h2 : b.toNat < c.toNat
          · simp [show a.toNat < c.toNat by omega]
          · by_cases h3 : c.toNat < b.toNat
            · simp [h2, h3] at hbc
            · simp [show a.toNat < c.toNat by omega]
        · by_cases h4 : b.toNat < a.toNat
          · simp [h1, h4] at hab
          · by_cases h2 : b.toNat < c.toNat
            · simp [show a.toNat < c.toNat by omega]
            · by_cases h3 : c.toNat < b.toNat
              · simp [h2, h3] at hbc
              · have hac1 : ¬ a.toNat < c.toNat := by omega
                have hac2 : ¬ c.toNat < a.toNat := by omega
                simp only [if_neg h1, if_neg h4] at hab
                simp only [if_neg h2, if_neg h3] at hbc
                rw [if_neg hac1, if_neg hac2]
                exact ih bs cs hab hbc

lemma codeLt_of_le_of_ne : ∀ as bs : List Char,
    codeLe as bs = true → as ≠ bs → codeLt as bs = true := by
  intro as
  induction as with
  | nil =>
    intro bs _ hne
    cases bs with
    | nil => exact absurd rfl hne
    | cons b bs => rfl
  | cons a as ih =>
    intro bs hle hne
    cases bs with
    | nil => simp [codeLe] at hle
    | cons b bs =>
      simp only [codeLe] at hle
      simp only [codeLt]
      by_cases h1 : a.toNat < b.toNat
      · simp [h1]
      · by_cases h2 : b.toNat < a.toNat
        · simp [h1, h2] at hle
        · have hchar : a = b := by
            apply Char.ext
            apply UInt32.ext
            have : a.toNat = b.toNat := by omega
            simpa [Char.toNat] using this
          subst hchar
          simp only [if_neg h1, if_neg h2] at hle ⊢
          refine ih bs hle (fun hcon => hne ?_)
          rw [hcon]

lemma codeLt_asymm : ∀ as bs : List Char,
    codeLt as bs = true → codeLt bs as = true → False := by
  intro as
  induction as with
  | nil =>
    intro bs h1 h2
    cases bs with
    | nil => simp [codeLt] at h1
    | cons b bs => simp [codeLt] at h2
  | cons a as ih =>
    intro bs h1 h2
    cases bs with
    | nil => simp [codeLt] at h1
    | cons b bs =>
      simp only [codeLt] at h1 h2
      by_cases hab : a.toNat < b.toNat
      · have : ¬ b.toNat < a.toNat := by omega
        simp [this, show ¬ (b.toNat < a.toNat) from this, hab] at h2
      · by_cases hba : b.toNat < a.toNat
        · simp [hab, hba] at h1
        · simp only [if_neg hab, if_neg hba] at h1 h2
          exact ih bs h1 h2

/-- Strict key order on items, used only to identify the two sorted lists. -/
def paramLt (p q : String × String) : Prop := codeLt p.1.data q.1.data = true

instance : IsTotal (String × String) paramLe :=
  ⟨fun p q => codeLe_total p.1.data q.1.data⟩

instance : IsTrans (String × String) paramLe :=
  ⟨fun _ _ _ h1 h2 => codeLe_trans _ _ _ h1 h2⟩

instance : IsAntisymm (String × String) paramLt :=
  ⟨fun _ _ h1 h2 => (codeLt_asymm _ _ h1 h2).elim⟩

lemma sorted_paramLt_of_sorted_nodup (l : List (String × String))
    (hs : List.Sorted paramLe l) (hnd : (l.map Prod.fst).Nodup) :
    List.Sorted paramLt l := by
  have hpw : List.Pairwise (fun p q : String × String => p.1 ≠ q.1) l :=
    List.pairwise_map.mp hnd
  refine List.Pairwise.imp ?_ (List.Pairwise.and hs hpw)
  rintro p q ⟨hle, hne⟩
  refine codeLt_of_le_of_ne _ _ hle (fun hdata => hne ?_)
  exact String.ext hdata

/-- C6: the cache key is insertion-order independent — two parameter maps
holding the same key-value pairs in different insertion orders canonicalize to
the identical cache key, hence share one cache entry. -/
theorem cache_key_order_independent_c6 (p₁ p₂ : Params)
    (hperm : List.Perm p₁ p₂) (hnd : (List.map Prod.fst p₁).Nodup) :
    cacheKey p₁ = cacheKey p₂ := by
  have hperm1 : List.Perm (cacheKey p₁) p₁ := List.perm_insertionSort paramLe p₁
  have hperm2 : List.Perm (cacheKey p₂) p₂ := List.perm_insertionSort paramLe p₂
  have hchain : List.Perm (cacheKey p₁) (cacheKey p₂) :=
    ((hperm1.trans hperm).trans hperm2.symm)
  have hnd2 : (List.map Prod.fst p₂).Nodup := (hperm.map Prod.fst).nodup_iff.mp hnd
  have hnd1s : (List.map Prod.fst (cacheKey p₁)).Nodup :=
    ((hperm1.map Prod.fst).nodup_iff).mpr hnd
  have hnd2s : (List.map Prod.fst (cacheKey p₂)).Nodup :=
    ((hperm2.map Prod.fst).nodup_iff).mpr hnd2
  exact List.eq_of_perm_of_sorted hchain
    (sorted_paramLt_of_sorted_nodup _ (List.sorted_insertionSort paramLe p₁) hnd1s)
    (sorted_paramLt_of_sorted_nodup _ (List.sorted_insertionSort paramLe p₂) hnd2s)

/-- Witness for C6: the `GLOBAL_QUOTE` parameters inserted in the two possible
orders canonicalize to the same cache key. -/
theorem cache_key_order_independent_c6_witness :
    cacheKey [("symbol", "AAPL"), ("function", "GLOBAL_QUOTE")] =
      cacheKey [("function", "GLOBAL_QUOTE"), ("symbol", "AAPL")] :=
  cache_key_order_independent_c6 _ _ (by decide) (by decide)

/-!
Embedding of `DataFetcher.get_data` (data_fetcher.py lines 70-134).

Python values flowing through the fetcher are modelled by `PyVal` (JSON
payloads, cached entries, returned results).  The network and the wall clock
are explicit streams: the `k`-th `requests.get` round-trip yields
`env.net k` and the `k`-th `time.time()` reading yields `env.clock k`;
the state carries the next unread index of each stream.  Side effects that the
claims count — network round-trips, `api_call_timestamps.append`, and
`time.sleep` — are reported in an event list.  The blocking capacity loop of
`_wait_if_needed` is analyzed above as `waitLoop`; inside `get_data` its state
effect upon return, pruning of the expired timestamps at the current reading,
is embedded directly.
-/

/-- Python values relevant to the fetcher: `None`, booleans, numbers (floats
as rationals), strings, and string-keyed dicts in insertion order. -/
inductive PyVal where
  | pnone : PyVal
  | pbool : Bool → PyVal
  | pnum : ℚ → PyVal
  | pstr : String → PyVal
  | pdict : List (String × PyVal) → PyVal

/-- Result of one `requests.get` round-trip: a raised transport-level
`RequestException`, an HTTP error status (which makes `raise_for_status`
raise `HTTPError`, a `RequestException` subclass), or a 2xx response carrying
its body text and, when the body is valid JSON, the decoded object
(`none` makes `response.json()` raise `ValueError`). -/
inductive NetResult where
  | transportError : NetResult
  | httpError : ℕ → NetResult
  | ok : String → Option (List (String × PyVal)) → NetResult

/-- The fetcher's environment: the stream of network results and the stream
of `time.time()` readings. -/
structure FetchEnv where
  net : ℕ → NetResult
  clock : ℕ → ℤ

/-- Mutable state of a `DataFetcher` object: the timestamp queue, the cache
(`cache_key ↦ (data, timestamp)`), and the construction-time
`cache_duration`; `clk` and `netk` are the indices of the next unread entry
of the clock and network streams. -/
structure FetchSt where
  apiCallTimestamps : List ℤ
  cache : List (Params × (PyVal × ℤ))
  cacheDuration : ℤ
  clk : ℕ
  netk : ℕ

/-- Side effects of one `get_data` call that the claims count. -/
inductive Ev where
  | netCall : Ev
  | tsAppend : ℤ → Ev
  | sleepFor : ℤ → Ev

def isNetCall : Ev → Bool
  | .netCall => true
  | _ => false

def isTsAppend : Ev → Bool
  | .tsAppend _ => true
  | _ => false

def isSleepEv : Ev → Bool
  | .sleepFor _ => true
  | _ => false

/-- Result of a `get_data` call: returned value, final fetcher state, and the
side effects performed. -/
structure GDResult where
  ret : Option PyVal
  st : FetchSt
  evs : List Ev

/-- Python dict lookup on the insertion-ordered cache map. -/
def lookupC (k : Params) : List (Params × (PyVal × ℤ)) → Option (PyVal × ℤ)
  | [] => none
  | (k2, v) :: rest => if k = k2 then some v else lookupC k rest

/-- Python dict assignment `self.cache[key] = v`: replace or append. -/
def insertC (k : Params) (v : PyVal × ℤ) : List (Params × (PyVal × ℤ)) →
    List (Params × (PyVal × ℤ))
  | [] => [(k, v)]
  | (k2, v2) :: rest => if k = k2 then (k, v) :: rest else (k2, v2) :: insertC k v rest

/-- `params.get("function")`: first-match lookup in the parameter map. -/
def pyGetParam (params : Params) (k : String) : Option String :=
  match params with
  | [] => none
  | (k2, v) :: rest => if k2 = k then some v else pyGetParam rest k

/-- `params.get("function") == "LISTING_STATUS"` (data_fetcher.py line 103). -/
def isListing (params : Params) : Bool :=
  decide (pyGetParam params "function" = some "LISTING_STATUS")

/-- Python `"key" in data` on a decoded JSON object. -/
def containsKey (fields : List (String × PyVal)) (k : String) : Bool :=
  fields.any (fun kv => decide (kv.1 = k))

/-- The retry loop of `get_data` (data_fetcher.py lines 93-131):
`for attempt in range(retries)`, with `fuel` the number of remaining
attempts and `attempt` the current attempt index (used by the exponential
backoff `2 ** attempt`).  Each attempt: `_wait_if_needed` (whose state effect
on return is pruning at the current clock reading), one network round-trip,
then classification exactly as in the source — `RequestException` (transport
error or HTTP error status) sleeps the backoff and retries; a
`LISTING_STATUS` request records a timestamp, caches the raw body text and
returns `{"csv_data": text}`; an undecodable body returns `None`; a decoded
body records a timestamp, then returns `None` on `"Error Message"`, sleeps 5
and retries on `"Information"`, and otherwise caches and returns the data. -/
def attemptLoop (env : FetchEnv) (params : Params) (key : Params) :
    ℕ → ℕ → FetchSt → GDResult
  | 0, _, st => ⟨none, st, []⟩
  | fuel + 1, attempt, st =>
    let now0 := env.clock st.clk
    let st1 : FetchSt :=
      { st with clk := st.clk + 1,
                apiCallTimestamps := rlPrune st.apiCallTimestamps now0 }
    match env.net st1.netk with
    | .transportError =>
      let st2 : FetchSt := { st1 with netk := st1.netk + 1 }
      let rest := attemptLoop env params key fuel (attempt + 1) st2
      ⟨rest.ret, rest.st, Ev.netCall :: Ev.sleepFor (2 ^ attempt) :: rest.evs⟩
    | .httpError _ =>
      let st2 : FetchSt := { st1 with netk := st1.netk + 1 }
      let rest := attemptLoop env params key fuel (attempt + 1) st2
      ⟨rest.ret, rest.st, Ev.netCall :: Ev.sleepFor (2 ^ attempt) :: rest.evs⟩
    | .ok text json =>
      let st2 : FetchSt := { st1 with netk := st1.netk + 1 }
      if isListing params then
        let t1 := env.clock st2.clk
        let st3 : FetchSt :=
          { st2 with clk := st2.clk + 1,
                     apiCallTimestamps := st2.apiCallTimestamps ++ [t1] }
        let t2 := env.clock st3.clk
        let st4 : FetchSt :=
          { st3 with clk := st3.clk + 1,
                     cache := insertC key (PyVal.pstr text, t2) st3.cache }
        ⟨some (PyVal.pdict [("csv_data", PyVal.pstr text)]), st4,
          [Ev.netCall, Ev.tsAppend t1]⟩
      else
        match json with
        | none => ⟨none, st2, [Ev.netCall]⟩
        | some data =>
          let t1 := env.clock st2.clk
          let st3 : FetchSt :=
            { st2 with clk := st2.clk + 1,
                       apiCallTimestamps := st2.apiCallTimestamps ++ [t1] }
          if containsKey data "Error Message" then
            ⟨none, st3, [Ev.netCall, Ev.tsAppend t1]⟩
          else if containsKey data "Information" then
            let rest := attemptLoop env params key fuel (attempt + 1) st3
            ⟨rest.ret, rest.st,
              Ev.netCall :: Ev.tsAppend t1 :: Ev.sleepFor 5 :: rest.evs⟩
          else
            let t2 := env.clock st3.clk
            let st4 : FetchSt :=
              { st3 with clk := st3.clk + 1,
                         cache := insertC key (PyVal.pdict data, t2) st3.cache }
            ⟨some (PyVal.pdict data), st4, [Ev.netCall, Ev.tsAppend t1]⟩

/-- `DataFetcher.get_data` (data_fetcher.py lines 70-134): compute the cache
key; on a live cache entry return its payload; otherwise run the retry
loop.  A stale entry is not evicted — it falls through to the attempts. -/
def getData (env : FetchEnv) (params : Params) (retries : ℕ) (st : FetchSt) :
    GDResult :=
  let key := cacheKey params
  match lookupC key st.cache with
  | some (data, tstamp) =>
    let now := env.clock st.clk
    let st1 : FetchSt := { st with clk := st.clk + 1 }
    if now - tstamp < st.cacheDuration then ⟨some data, st1, []⟩
    else attemptLoop env params key retries 0 st1
  | none => attemptLoop env params key retries 0 st

/-- C2: a `get_data` call that finds a cache entry younger than the TTL
returns the cached payload and performs no side effect: no network call, no
timestamp append, no sleep, and the timestamp queue and the cache map are
returned unchanged (only the clock-stream index advances, for the one
`time.time()` reading of the freshness check). -/
theorem cache_hit_pure_c2 (env : FetchEnv) (params : Params) (retries : ℕ)
    (st : FetchSt) (data : PyVal) (tstamp : ℤ)
    (hhit : lookupC (cacheKey params) st.cache = some (data, tstamp))
    (hfresh : env.clock st.clk - tstamp < st.cacheDuration) :
    getData env params retries st =
      ⟨some data, { st with clk := st.clk + 1 }, []⟩ := by
  simp only [getData]
  rw [hhit]
  simp [hfresh]

/-- Witness for C2 at a concrete fresh cache entry. -/
theorem cache_hit_pure_c2_witness :
    getData ⟨fun _ => NetResult.transportError, fun _ => 0⟩
        [("function", "OVERVIEW")] 3
        ⟨[], [([("function", "OVERVIEW")], (PyVal.pdict [], 0))], 14400, 0, 0⟩ =
      ⟨some (PyVal.pdict []),
        ⟨[], [([("function", "OVERVIEW")], (PyVal.pdict [], 0))], 14400, 1, 0⟩,
        []⟩ :=
  cache_hit_pure_c2 _ _ _ _ _ _ (by rfl) (by decide)

/-- C5: an attempt whose decoded payload carries the provider's
`"Error Message"` field makes `get_data` return `None` immediately: one
network round-trip, no further attempts, no backoff sleep, no matter how many
retries remain. -/
theorem provider_error_terminal_c5 (env : FetchEnv) (params : Params)
    (key : Params) (fuel attempt : ℕ) (st : FetchSt)
    (text : String) (data : List (String × PyVal))
    (hnet : env.net st.netk = NetResult.ok text (some data))
    (herr : containsKey data "Error Message" = true)
    (hnl : isListing params = false) :
    (attemptLoop env params key (fuel + 1) attempt st).ret = none ∧
    (attemptLoop env params key (fuel + 1) attempt st).evs.countP isNetCall = 1 ∧
    (attemptLoop env params key (fuel + 1) attempt st).evs.countP isSleepEv = 0 ∧
    (attemptLoop env params key (fuel + 1) attempt st).st.netk = st.netk + 1 := by
  simp [attemptLoop, hnet, herr, hnl, List.countP_cons, isNetCall, isSleepEv]

/-- Witness for C5 at a concrete error payload, with two retries remaining. -/
theorem provider_error_terminal_c5_witness :
    (attemptLoop
        ⟨fun _ => NetResult.ok "e" (some [("Error Message", PyVal.pstr "bad")]),
          fun _ => 0⟩
        [("function", "OVERVIEW")] [("function", "OVERVIEW")] 3 0
        ⟨[], [], 14400, 0, 0⟩).ret = none :=
  (provider_error_terminal_c5 _ _ _ 2 0 _ _ _ (by rfl) (by decide) (by decide)).1

/-- Which network round-trips append a timestamp in the source: those whose
response passed `raise_for_status` and — for non-`LISTING_STATUS` requests —
whose body decoded as JSON (the append at line 112 runs after
`response.json()`; the `LISTING_STATUS` append at line 106 runs on any 2xx
response). -/
def countedNet (listing : Bool) : NetResult → Bool
  | .ok _ j => listing || j.isSome
  | _ => false

lemma attemptLoop_counts (env : FetchEnv) (params : Params) (key : Params) :
    ∀ (fuel attempt : ℕ) (st : FetchSt),
    ∃ n : ℕ,
      (attemptLoop env params key fuel attempt st).st.netk = st.netk + n ∧
      (attemptLoop env params key fuel attempt st).evs.countP isNetCall = n ∧
      (attemptLoop env params key fuel attempt st).evs.countP isTsAppend =
        (List.range' st.netk n).countP
          (fun k => countedNet (isListing params) (env.net k)) := by
  intro fuel
  induction fuel with
  | zero =>
    intro attempt st
    exact ⟨0, by simp [attemptLoop], by simp [attemptLoop], by simp [attemptLoop]⟩
  | succ m ih =>
    intro attempt st
    cases hr : env.net st.netk with
    | transportError =>
      obtain ⟨n, h1, h2, h3⟩ := ih (attempt + 1)
        ⟨rlPrune st.apiCallTimestamps (env.clock st.clk), st.cache, st.cacheDuration,
          st.clk + 1, st.netk + 1⟩
      have hmid :
          ((⟨rlPrune st.apiCallTimestamps (env.clock st.clk), st.cache, st.cacheDuration,
            st.clk + 1, st.netk + 1⟩ : FetchSt)).netk = st.netk + 1 := rfl
      rw [hmid] at h1 h3
      refine ⟨n + 1, ?_, ?_, ?_⟩
      · simp only [attemptLoop, hr]
        omega
      · simp only [attemptLoop, hr]
        simp [List.countP_cons, isNetCall, isSleepEv]
        omega
      · simp only [attemptLoop, hr]
        rw [show List.range' st.netk (n + 1) = st.netk :: List.range' (st.netk + 1) n from rfl]
        have hhead : countedNet (isListing params) (env.net st.netk) = false := by
          simp [countedNet, hr]
        simp [List.countP_cons, isTsAppend, hhead]
        omega
    | httpError status =>
      obtain ⟨n, h1, h2, h3⟩ := ih (attempt + 1)
        ⟨rlPrune st.apiCallTimestamps (env.clock st.clk), st.cache, st.cacheDuration,
          st.clk + 1, st.netk + 1⟩
      have hmid :
          ((⟨rlPrune st.apiCallTimestamps (env.clock st.clk), st.cache, st.cacheDuration,
            st.clk + 1, st.netk + 1⟩ : FetchSt)).netk = st.netk + 1 := rfl
      rw [hmid] at h1 h3
      refine ⟨n + 1, ?_, ?_, ?_⟩
      · simp only [attemptLoop, hr]
        omega
      · simp only [attemptLoop, hr]
        simp [List.countP_cons, isNetCall, isSleepEv]
        omega
      · simp only [attemptLoop, hr]
        rw [show List.range' st.netk (n + 1) = st.netk :: List.range' (st.netk + 1) n from rfl]
        have hhead : countedNet (isListing params) (env.net st.netk) = false := by
          simp [countedNet, hr]
        simp [List.countP_cons, isTsAppend, hhead]
        omega
    | ok text json =>
      cases hl : isListing params with
      | true =>
        refine ⟨1, ?_, ?_, ?_⟩
        · simp [attemptLoop, hr, hl]
        · simp [attemptLoop, hr, hl, List.countP_cons, isNetCall, isTsAppend]
        · rw [show List.range' st.netk 1 = [st.netk] from rfl]
          simp [attemptLoop, hr, hl, List.countP_cons, isNetCall, isTsAppend, countedNet]
      | false =>
        cases json with
        | none =>
          refine ⟨1, ?_, ?_, ?_⟩
          · simp [attemptLoop, hr, hl]
          · simp [attemptLoop, hr, hl, List.countP_cons, isNetCall, isTsAppend]
          · rw [show List.range' st.netk 1 = [st.netk] from rfl]
            simp [attemptLoop, hr, hl, List.countP_cons, isNetCall, isTsAppend, countedNet]
        | some data =>
          by_cases herr : containsKey data "Error Message" = true
          · refine ⟨1, ?_, ?_, ?_⟩
            · simp [attemptLoop, hr, hl, herr]
            · simp [attemptLoop, hr, hl, herr, List.countP_cons, isNetCall, isTsAppend]
            · rw [show List.range' st.netk 1 = [st.netk] from rfl]
              simp [attemptLoop, hr, hl, herr, List.countP_cons, isNetCall, isTsAppend,
                countedNet]
          · by_cases hinfo : containsKey data "Information" = true
            · obtain ⟨n, h1, h2, h3⟩ := ih (attempt + 1)
                ⟨rlPrune st.apiCallTimestamps (env.clock st.clk) ++ [env.clock (st.clk + 1)],
                  st.cache, st.cacheDuration, st.clk + 1 + 1, st.netk + 1⟩
              have hmid :
                  ((⟨rlPrune st.apiCallTimestamps (env.clock st.clk) ++ [env.clock (st.clk + 1)],
                    st.cache, st.cacheDuration, st.clk + 1 + 1, st.netk + 1⟩ :
                      FetchSt)).netk = st.netk + 1 := rfl
              rw [hmid] at h1 h3
              refine ⟨n + 1, ?_, ?_, ?_⟩
              · simp only [attemptLoop, hr]
                simp [hl, herr, hinfo]
                omega
              · simp only [attemptLoop, hr]
                simp [hl, herr, hinfo, List.countP_cons, isNetCall, isSleepEv, isTsAppend]
                omega
              · simp only [attemptLoop, hr]
                rw [show List.range' st.netk (n + 1) = st.netk :: List.range' (st.netk + 1) n from rfl]
                have hhead : countedNet false (env.net st.netk) = true := by
                  simp [countedNet, hr]
                rw [hl] at h3
                simp [hl, herr, hinfo, List.countP_cons, isTsAppend, hhead]
                omega
            · refine ⟨1, ?_, ?_, ?_⟩
              · simp [attemptLoop, hr, hl, herr, hinfo]
              · simp [attemptLoop, hr, hl, herr, hinfo, List.countP_cons, isNetCall,
                  isTsAppend]
              · rw [show List.range' st.netk 1 = [st.netk] from rfl]
                simp [attemptLoop, hr, hl, herr, hinfo, List.countP_cons, isNetCall,
                  isTsAppend, countedNet]

/-- C3 (amended): in every `get_data` execution, a timestamp is appended
exactly once per network round-trip whose response passed `raise_for_status`
and — for non-`LISTING_STATUS` requests — decoded as JSON; round-trips ending
in a transport error, an HTTP error status, or an undecodable body append
none, and a live cache hit performs no round-trip and appends none. -/
theorem timestamp_per_decoded_roundtrip_c3 (env : FetchEnv) (params : Params)
    (retries : ℕ) (st : FetchSt) :
    ∃ n : ℕ,
      (getData env params retries st).st.netk = st.netk + n ∧
      (getData env params retries st).evs.countP isNetCall = n ∧
      (getData env params retries st).evs.countP isTsAppend =
        (List.range' st.netk n).countP
          (fun k => countedNet (isListing params) (env.net k)) := by
  cases hl : lookupC (cacheKey params) st.cache with
  | none =>
    simpa only [getData, hl] using
      attemptLoop_counts env params (cacheKey params) retries 0 st
  | some entry =>
    obtain ⟨data, tstamp⟩ := entry
    by_cases hfresh : env.clock st.clk - tstamp < st.cacheDuration
    · refine ⟨0, ?_, ?_, ?_⟩ <;> simp [getData, hl, hfresh]
    · obtain ⟨n, h1, h2, h3⟩ := attemptLoop_counts env params (cacheKey params) retries 0
        ⟨st.apiCallTimestamps, st.cache, st.cacheDuration, st.clk + 1, st.netk⟩
      have hmid : ((⟨st.apiCallTimestamps, st.cache, st.cacheDuration,
          st.clk + 1, st.netk⟩ : FetchSt)).netk = st.netk := rfl
      rw [hmid] at h1 h3
      refine ⟨n, ?_, ?_, ?_⟩
      · simp only [getData, hl]
        rw [if_neg hfresh]
        exact h1
      · simp only [getData, hl]
        rw [if_neg hfresh]
        exact h2
      · simp only [getData, hl]
        rw [if_neg hfresh]
        exact h3

/-- Environment refuting C3 as stated: every round-trip raises a transport
error. -/
def env3cex : FetchEnv := ⟨fun _ => NetResult.transportError, fun _ => 0⟩

/-- A freshly constructed fetcher state: empty queue, empty cache, the default
`cache_duration_seconds = 14400`. -/
def st0F : FetchSt := ⟨[], [], 14400, 0, 0⟩

/-- The `GLOBAL_QUOTE` request issued by the scanner. -/
def quoteParams : Params := [("function", "GLOBAL_QUOTE"), ("symbol", "AAA")]

/-- Counterexample to C3 as stated: with every attempt failing at the
transport level, `get_data` performs three actual network round-trips yet
appends zero timestamps — failed attempts are NOT recorded into the rate
limiter's window, contradicting "exactly one timestamp per actual network
round-trip, for successful and for failed attempts alike". -/
theorem c3_counterexample :
    (getData env3cex quoteParams 3 st0F).evs.countP isNetCall = 3 ∧
    (getData env3cex quoteParams 3 st0F).evs.countP isTsAppend = 0 :=
  ⟨rfl, rfl⟩

lemma attemptLoop_httpError (env : FetchEnv) (params : Params) (key : Params)
    (hnet : ∀ k, ∃ s, env.net k = NetResult.httpError s) :
    ∀ (fuel attempt : ℕ) (st : FetchSt),
      (attemptLoop env params key fuel attempt st).ret = none ∧
      (attemptLoop env params key fuel attempt st).evs.countP isNetCall = fuel ∧
      (attemptLoop env params key fuel attempt st).evs.countP isTsAppend = 0 ∧
      (attemptLoop env params key fuel attempt st).evs.countP isSleepEv = fuel := by
  intro fuel
  induction fuel with
  | zero => intro attempt st; simp [attemptLoop]
  | succ m ih =>
    intro attempt st
    obtain ⟨s, hs⟩ := hnet st.netk
    obtain ⟨g1, g2, g3, g4⟩ := ih (attempt + 1)
      ⟨rlPrune st.apiCallTimestamps (env.clock st.clk), st.cache, st.cacheDuration,
        st.clk + 1, st.netk + 1⟩
    refine ⟨?_, ?_, ?_, ?_⟩ <;>
      simp [attemptLoop, hs, List.countP_cons, isNetCall, isTsAppend, isSleepEv,
        g1, g2, g3, g4]

/-- C4 (amended): an HTTP error status raises `requests.exceptions.HTTPError`,
a `RequestException` subclass, so `get_data` treats it exactly like a
transport error: it sleeps the exponential backoff and retries, consuming all
`retries` attempts; no rate-limit timestamp is recorded for such attempts and
the call finally returns `None`. -/
theorem http_error_retried_c4 (env : FetchEnv) (params : Params)
    (retries : ℕ) (st : FetchSt)
    (hnet : ∀ k, ∃ s, env.net k = NetResult.httpError s)
    (hmiss : lookupC (cacheKey params) st.cache = none) :
    (getData env params retries st).ret = none ∧
    (getData env params retries st).evs.countP isNetCall = retries ∧
    (getData env params retries st).evs.countP isTsAppend = 0 ∧
    (getData env params retries st).evs.countP isSleepEv = retries := by
  simpa only [getData, hmiss] using
    attemptLoop_httpError env params (cacheKey params) hnet retries 0 st

/-- Environment refuting C4 as stated: the provider answers every round-trip
with an HTTP 404 status. -/
def env4cex : FetchEnv := ⟨fun _ => NetResult.httpError 404, fun _ => 0⟩

/-- Counterexample to C4 as stated: after the first HTTP error status,
`get_data` does NOT fail terminally — it performs three round-trips in total
and sleeps three backoffs, contradicting "no further attempts, backoff
sleeps, or rate-limit consumption occur after an HTTP error status". -/
theorem c4_counterexample :
    (getData env4cex quoteParams 3 st0F).evs.countP isNetCall = 3 ∧
    (getData env4cex quoteParams 3 st0F).evs.countP isSleepEv = 3 :=
  ⟨rfl, rfl⟩

/-- Witness for C4 (amended) at the concrete 404 environment. -/
theorem http_error_retried_c4_witness :
    (getData env4cex quoteParams 3 st0F).ret = none :=
  (http_error_retried_c4 env4cex quoteParams 3 st0F
    (fun _ => ⟨404, rfl⟩) (by rfl)).1

lemma lookupC_insertC (k : Params) (v : PyVal × ℤ) :
    ∀ c : List (Params × (PyVal × ℤ)), lookupC k (insertC k v c) = some v := by
  intro c
  induction c with
  | nil => simp [lookupC, insertC]
  | cons kv rest ih =>
    obtain ⟨k2, v2⟩ := kv
    by_cases hk : k = k2
    · simp [lookupC, insertC, hk]
    · simp [lookupC, insertC, hk, ih]

/-- The `LISTING_STATUS` request. -/
def listingParams : Params := [("function", "LISTING_STATUS")]

/-- C10: for a `LISTING_STATUS` request, the first successful fetch returns
the dict `{"csv_data": text}` while storing the bare body text in the cache,
so a second call with the same parameters inside the TTL returns the bare
string — the two calls return values of different shapes. -/
theorem listing_shape_mismatch_c10 (env : FetchEnv) (st : FetchSt)
    (retries : ℕ) (text : String) (j : Option (List (String × PyVal)))
    (hmiss : lookupC (cacheKey listingParams) st.cache = none)
    (hnet : env.net st.netk = NetResult.ok text j)
    (hfresh : env.clock (st.clk + 1 + 1 + 1) - env.clock (st.clk + 1 + 1) <
      st.cacheDuration) :
    (getData env listingParams (retries + 1) st).ret =
        some (PyVal.pdict [("csv_data", PyVal.pstr text)]) ∧
    (getData env listingParams (retries + 1)
        (getData env listingParams (retries + 1) st).st).ret =
      some (PyVal.pstr text) := by
  have hlist : isListing listingParams = true := rfl
  have h1 : getData env listingParams (retries + 1) st =
      ⟨some (PyVal.pdict [("csv_data", PyVal.pstr text)]),
        ⟨rlPrune st.apiCallTimestamps (env.clock st.clk) ++ [env.clock (st.clk + 1)],
          insertC (cacheKey listingParams)
            (PyVal.pstr text, env.clock (st.clk + 1 + 1)) st.cache,
          st.cacheDuration, st.clk + 1 + 1 + 1, st.netk + 1⟩,
        [Ev.netCall, Ev.tsAppend (env.clock (st.clk + 1))]⟩ := by
    simp only [getData, hmiss]
    simp [attemptLoop, hnet, hlist]
  refine ⟨by rw [h1], ?_⟩
  rw [h1]
  simp only [getData]
  simp [lookupC_insertC, hfresh]

/-- Environment for the C10 witness: one 2xx response whose body is the raw
listing text. -/
def env10w : FetchEnv := ⟨fun _ => NetResult.ok "sym" none, fun k => (k : ℤ)⟩

/-- Witness for C10 at a concrete listing fetch: the first call returns the
dict shape, the second call — a cache hit one second later — returns the
bare string. -/
theorem listing_shape_mismatch_c10_witness :
    (getData env10w listingParams 3 st0F).ret =
        some (PyVal.pdict [("csv_data", PyVal.pstr "sym")]) ∧
    (getData env10w listingParams 3 (getData env10w listingParams 3 st0F).st).ret =
      some (PyVal.pstr "sym") :=
  listing_shape_mismatch_c10 env10w st0F 2 "sym" none (by rfl) (by rfl) (by decide)

/-!
Embedding of `portfolio_manager.PortfolioManager` (revolution-state part) and
of `selection_agent`.  Candidate dicts built by the scanner have the fixed
shape of selection_agent.py lines 126-131 and are modelled by `Candidate`;
floats are rationals.  The open/closed position lists are carried opaquely —
none of the modelled operations touch them.
-/

/-- A qualified-candidate record (selection_agent.py lines 126-131). -/
structure Candidate where
  ticker : String
  status : String
  currentPrice : ℚ
  changePercent : Option ℚ
  aiScore : ℕ
deriving DecidableEq

/-- The `_revolution_state` dict of `PortfolioManager.__init__`
(portfolio_manager.py lines 23-30). -/
structure RevolutionState where
  is_active : Bool
  phase : ℕ
  last_scanned_index : ℤ
  full_market_list : List String
  phase1_candidates : List Candidate
  log : List String
deriving DecidableEq

/-- A `PortfolioManager` object's state. -/
structure PMState where
  dream_team : List Candidate
  open_positions : List PyVal
  closed_positions : List PyVal
  revolution : RevolutionState

/-- `PortfolioManager.__init__`: initial revolution state. -/
def initRevolutionState : RevolutionState :=
  ⟨false, 1, -1, [], [], ["Rewolucja AI jest gotowa do startu."]⟩

/-- `PortfolioManager.update_dream_team` (portfolio_manager.py lines 43-47):
replace the dream team with the given candidate list. -/
def update_dream_team (pm : PMState) (new_candidates_list : List Candidate) :
    PMState :=
  { pm with dream_team := new_candidates_list }

/-- `PortfolioManager.start_revolution` (portfolio_manager.py lines 55-65). -/
def start_revolution (pm : PMState) (full_market_list : List String) : PMState :=
  if pm.revolution.last_scanned_index = -1 then
    { pm with revolution :=
        { pm.revolution with
            is_active := true,
            full_market_list := full_market_list,
            phase1_candidates := [],
            log := ["Rozpoczęto Rewolucję AI. Cel: " ++
              toString full_market_list.length ++ " spółek."] } }
  else
    { pm with revolution :=
        { pm.revolution with
            is_active := true,
            log := pm.revolution.log ++ ["Wznowiono Rewolucję AI."] } }

/-- `PortfolioManager.pause_revolution` (portfolio_manager.py lines 67-72). -/
def pause_revolution (pm : PMState) : PMState :=
  if pm.revolution.is_active then
    { pm with revolution :=
        { pm.revolution with
            is_active := false,
            log := pm.revolution.log ++
              ["Rewolucja AI została wstrzymana przez użytkownika."] } }
  else pm

/-- `PortfolioManager.save_revolution_progress` (portfolio_manager.py lines
74-79): set the cursor, extend the candidate list, and append ONE summary
line to the log.  The method takes no log-lines argument and performs no
truncation. -/
def save_revolution_progress (pm : PMState) (last_scanned_index : ℤ)
    (new_candidates : List Candidate) : PMState :=
  let cands := pm.revolution.phase1_candidates ++ new_candidates
  { pm with revolution :=
      { pm.revolution with
          last_scanned_index := last_scanned_index,
          phase1_candidates := cands,
          log := pm.revolution.log ++
            ["Zapisano postęp. Przeskanowano do indeksu " ++
              toString last_scanned_index ++ ". Znaleziono dotąd " ++
              toString cands.length ++ " kandydatów."] } }

/-- `PortfolioManager.complete_revolution` (portfolio_manager.py lines 81-91):
replace the whole revolution state with a fresh inactive one. -/
def complete_revolution (pm : PMState) : PMState :=
  { pm with revolution :=
      ⟨false, 1, -1, [], [],
        ["Rewolucja AI zakończona pomyślnie. Gotowa do nowego startu."]⟩ }

/-- C8 (amended): `complete_revolution` resets the revolution state wholesale —
`is_active` becomes false, the cursor returns to -1, the universe and the
accumulated candidates are discarded, the log is replaced by a single
completion message — and the dream team is left untouched: the accumulated
candidates are NOT handed to the watch-list (no `is_completed` flag exists in
the state at all). -/
theorem complete_revolution_resets_c8 (pm : PMState) :
    (complete_revolution pm).revolution.is_active = false ∧
    (complete_revolution pm).revolution.last_scanned_index = -1 ∧
    (complete_revolution pm).revolution.full_market_list = [] ∧
    (complete_revolution pm).revolution.phase1_candidates = [] ∧
    (complete_revolution pm).revolution.log =
      ["Rewolucja AI zakończona pomyślnie. Gotowa do nowego startu."] ∧
    (complete_revolution pm).dream_team = pm.dream_team :=
  ⟨rfl, rfl, rfl, rfl, rfl, rfl⟩

/-- A manager state holding one qualified candidate, about to complete. -/
def pmC8 : PMState :=
  ⟨[], [], [], ⟨true, 1, 5, ["AAA"], [⟨"AAA", "Nowy Kandydat", 1, none, 2⟩], []⟩⟩

/-- Counterexample to C8 as stated: completing a scan that accumulated one
candidate discards it — the candidate list is emptied and the dream team does
not receive it, contradicting "the qualified candidates … are preserved as
the authoritative watch-list snapshot handed to the watch-list store (they
are not discarded by completion)". -/
theorem c8_counterexample :
    (complete_revolution pmC8).revolution.phase1_candidates ≠
        pmC8.revolution.phase1_candidates ∧
    (complete_revolution pmC8).dream_team ≠ pmC8.revolution.phase1_candidates := by
  constructor <;> decide

/-- C9 (amended): `save_revolution_progress` appends exactly one summary line
to the log and never truncates: the previous log is preserved as a prefix and
the length grows by exactly one on every call, so no 100-entry cap exists. -/
theorem save_progress_log_growth_c9 (pm : PMState) (idx : ℤ)
    (cands : List Candidate) :
    (save_revolution_progress pm idx cands).revolution.log =
      pm.revolution.log ++
        ["Zapisano postęp. Przeskanowano do indeksu " ++ toString idx ++
          ". Znaleziono dotąd " ++
          toString (pm.revolution.phase1_candidates ++ cands).length ++
          " kandydatów."] ∧
    (save_revolution_progress pm idx cands).revolution.log.length =
      pm.revolution.log.length + 1 := by
  constructor
  · rfl
  · simp [save_revolution_progress]

/-- A manager state whose log already holds 100 entries. -/
def pmLog100 : PMState :=
  ⟨[], [], [], ⟨true, 1, -1, [], [], List.replicate 100 "x"⟩⟩

/-- Counterexample to C9 as stated: saving progress on a 100-entry log leaves
101 entries — the log is not truncated to the last 100. -/
theorem c9_counterexample :
    ¬ ((save_revolution_progress pmLog100 0 []).revolution.log.length ≤ 100) := by
  decide

/-- Python `dict.get` / subscript on a decoded object: first match or absent. -/
def pyDictGet : List (String × PyVal) → String → Option PyVal
  | [], _ => none
  | (k2, v) :: rest, k => if k2 = k then some v else pyDictGet rest k

/-- Digit value of a character, `none` for non-digits. -/
def digitVal (c : Char) : Option ℕ :=
  if 48 ≤ c.toNat ∧ c.toNat ≤ 57 then some (c.toNat - 48) else none

/-- Accumulate decimal digits; `none` on any non-digit, and `none` for the
empty digit run when no digits were accumulated yet. -/
def parseDigits : List Char → Option ℕ → Option ℕ
  | [], acc => acc
  | c :: cs, acc =>
    match digitVal c with
    | some d => parseDigits cs (some (acc.getD 0 * 10 + d))
    | none => none

/-- Python `float(str)` on the plain decimal strings the provider emits:
optional sign, integer digits, optional fractional digits (scientific
notation, infinities and surrounding whitespace are not needed by the
payloads and are treated as unparsable). -/
def pyFloatCore (cs : List Char) : Option ℚ :=
  let intPart := cs.takeWhile (fun c => decide (c ≠ '.'))
  let rest := cs.dropWhile (fun c => decide (c ≠ '.'))
  match rest with
  | [] => (parseDigits intPart none).map (fun n => (n : ℚ))
  | _ :: frac =>
    if frac.any (fun c => decide (c = '.')) then none
    else
      match parseDigits intPart none, parseDigits frac none with
      | none, none => none
      | iOpt, fOpt =>
        some ((iOpt.getD 0 : ℚ) + (fOpt.getD 0 : ℚ) / (10 : ℚ) ^ frac.length)

def pyFloatOfString (s : String) : Option ℚ :=
  match s.data with
  | '-' :: rest => (pyFloatCore rest).map Neg.neg
  | '+' :: rest => pyFloatCore rest
  | cs => pyFloatCore cs

/-- `utils.safe_float` (utils.py lines 23-32): `None` and unconvertible values
fall back to the default (Python default `0.0`; every reachable call site of
the embedding passes the default explicitly).  `float` of a dict raises
`TypeError`, which the handler also converts to the default. -/
def safe_float (value : Option PyVal) (default : ℚ) : ℚ :=
  match value with
  | none => default
  | some PyVal.pnone => default
  | some (PyVal.pnum q) => q
  | some (PyVal.pbool b) => if b then 1 else 0
  | some (PyVal.pstr s) => (pyFloatOfString s).getD default
  | some (PyVal.pdict _) => default

/-- `latest_data.get(secondary_key)`: dict lookup; on a non-dict value Python
raises `AttributeError`, caught by every caller's handler and therefore
modelled as absent. -/
def pyGetMethod (latest : PyVal) (k : String) : Option PyVal :=
  match latest with
  | PyVal.pdict fields => pyDictGet fields k
  | _ => none

/-- `utils.get_latest_value` (utils.py lines 5-21): guard falsy/keyless data,
take the first entry of the time series (`next(iter(...))` on an
insertion-ordered dict), and optionally project a field of it.  Ill-typed
payloads make Python raise (`TypeError`/`AttributeError`), which every caller
catches and treats as a skip, so they are modelled as absent. -/
def get_latest_value (data : Option PyVal) (primary_key : String)
    (secondary_key : Option String) : Option PyVal :=
  match data with
  | some (PyVal.pdict fields) =>
    if containsKey fields primary_key = false then none
    else
      match pyDictGet fields primary_key with
      | some (PyVal.pdict entries) =>
        match entries with
        | [] => none
        | (_, latest) :: _ =>
          match secondary_key with
          | some sk => if sk = "" then some latest else pyGetMethod latest sk
          | none => some latest
      | _ => none
  | _ => none

/-- Python truthiness of a fetched payload. -/
def pyFalsy : Option PyVal → Bool
  | none => true
  | some PyVal.pnone => true
  | some (PyVal.pbool b) => !b
  | some (PyVal.pnum q) => decide (q = 0)
  | some (PyVal.pstr s) => decide (s = "")
  | some (PyVal.pdict fields) => fields.isEmpty

/-- Python `key in payload` for a fetched payload; non-dict payloads are
modelled as not containing the key (for those Python would substring-match or
raise, and every such path ends in the same skip). -/
def pyHasKey : Option PyVal → String → Bool
  | some (PyVal.pdict fields), k => containsKey fields k
  | _, _ => false

/-- `SCAN_BATCH_SIZE` (selection_agent.py line 16). -/
def SCAN_BATCH_SIZE : ℕ := 50

/-- `agent_plynnosci` (selection_agent.py lines 20-31): look for a volume
spike in the first 30 daily entries.  Its `except (KeyError, IndexError,
TypeError)` turns missing keys and ill-typed entries into `False`. -/
def agent_plynnosci (daily_data : Option PyVal) : Bool :=
  match daily_data with
  | some (PyVal.pdict fields) =>
    match pyDictGet fields "Time Series (Daily)" with
    | some (PyVal.pdict entries) =>
      let series := (entries.map Prod.snd).take 30
      if series.length < 30 then false
      else if series.all (fun day =>
          match day with
          | PyVal.pdict dayFields => containsKey dayFields "5. volume"
          | _ => false) = false then false
      else
        let volumes := series.map (fun day =>
          match day with
          | PyVal.pdict dayFields => safe_float (pyDictGet dayFields "5. volume") 0
          | _ => 0)
        if volumes.isEmpty then false
        else
          let avg := volumes.sum / (volumes.length : ℚ)
          if avg = 0 then false
          else volumes.any (fun v => decide (v > avg * 5))
    | _ => false
  | _ => false

/-- `agent_impulsu` (selection_agent.py lines 33-39): price above the latest
50-day SMA. -/
def agent_impulsu (sma_data : Option PyVal) (current_price : ℚ) : Bool :=
  let latest_sma :=
    safe_float (get_latest_value sma_data "Technical Analysis: SMA" (some "SMA")) 0
  decide (current_price > latest_sma)

/-- `agent_zmiennosci` (selection_agent.py lines 41-48): relative ATR at
least 4 percent. -/
def agent_zmiennosci (atr_data : Option PyVal) (current_price : ℚ) : Bool :=
  let latest_atr :=
    safe_float (get_latest_value atr_data "Technical Analysis: ATR" (some "ATR")) 0
  if current_price = 0 then false
  else decide (latest_atr / current_price ≥ (0.04 : ℚ))

/-- The loop body of `run_revolution_step` (selection_agent.py lines 97-138)
for one ticker: Phase-1 prefilter on the quote, Phase-2 data fetches and
agent voting.  The fetcher is passed as an oracle from request parameters to
the returned payload (its cache/rate-limit state evolution is analyzed
separately on `getData`).  When `score >= 2`, line 125 calls
`get_latest_value` with four positional arguments while `utils` defines it
with at most three, so Python raises `TypeError`; the per-ticker
`except Exception` handler catches it, logs it, and skips the ticker, so no
candidate is ever appended.  Numeric string formatting inside log lines is
abstracted by `toString`. -/
def processTicker (fetch : Params → Option PyVal) (ticker : String)
    (logs : List String) (cands : List Candidate) :
    List String × List Candidate :=
  let quote_data := fetch [("function", "GLOBAL_QUOTE"), ("symbol", ticker)]
  let price := safe_float (get_latest_value quote_data "Global Quote" (some "05. price")) 0
  let volume := safe_float (get_latest_value quote_data "Global Quote" (some "06. volume")) 0
  if ¬ (0 < price ∧ price ≤ 5 ∧ volume > 100000) then (logs, cands)
  else
    let logs1 := logs ++ ["[" ++ ticker ++ "] Faza 1: OK. Cena: $" ++
      toString price ++ ", Wolumen: " ++ toString volume ++ "."]
    let daily_data := fetch [("function", "TIME_SERIES_DAILY"), ("symbol", ticker),
      ("outputsize", "compact")]
    let sma_data := fetch [("function", "SMA"), ("symbol", ticker),
      ("interval", "daily"), ("time_period", "50"), ("series_type", "close")]
    let atr_data := fetch [("function", "ATR"), ("symbol", ticker),
      ("interval", "daily"), ("time_period", "14")]
    if pyFalsy daily_data ∨ pyHasKey daily_data "Time Series (Daily)" = false ∨
        pyFalsy sma_data ∨ pyFalsy atr_data then
      (logs1 ++ ["[" ++ ticker ++ "] Faza 2: Odrzucono - brak kompletnych danych analitycznych."],
        cands)
    else
      let current_price :=
        safe_float (get_latest_value daily_data "Time Series (Daily)" (some "4. close")) 0
      let score := (if agent_plynnosci daily_data then 1 else 0) +
        (if agent_impulsu sma_data current_price then 1 else 0) +
        (if agent_zmiennosci atr_data current_price then 1 else 0)
      if score ≥ 2 then
        (logs1 ++ ["[" ++ ticker ++
          "] Błąd krytyczny: get_latest_value() takes from 2 to 3 positional arguments but 4 were given"],
          cands)
      else
        (logs1 ++ ["[" ++ ticker ++ "] Faza 2: Odrzucono - zbyt niski wynik (" ++
          toString score ++ "/3)."], cands)

/-- The Python error raised at selection_agent.py lines 94 and 140: both call
`portfolio_manager.save_progress(...)`, but `PortfolioManager` defines only
`save_revolution_progress` (and with two parameters, not three), so attribute
lookup fails. -/
def saveProgressAttrError : String :=
  "AttributeError: PortfolioManager object has no attribute save_progress"

/-- The batch loop of `run_revolution_step` (selection_agent.py lines
91-138) followed by the save at line 140.  The pause check re-reads the
manager state, which no step mutates, so within one invocation it is the
entry state.  Both exits — the pause path (line 94) and the batch-complete
path (line 140) — call the missing `save_progress` method, which in Python
raises `AttributeError` out of the function (neither call site is inside the
per-ticker `try`). -/
def revBatchLoop (fetch : Params → Option PyVal) (pm : PMState)
    (full : List String) : List ℕ → List String → List Candidate →
    Except String PMState
  | [], _, _ => Except.error saveProgressAttrError
  | i :: rest, logs, cands =>
    if pm.revolution.is_active = false then Except.error saveProgressAttrError
    else
      let ticker := full.getD i ""
      let lc := processTicker fetch ticker logs cands
      revBatchLoop fetch pm full rest lc.1 lc.2

/-- `run_revolution_step` (selection_agent.py lines 76-146): a no-op returning
the state when the scan is inactive; otherwise one batch of at most
`SCAN_BATCH_SIZE` tickers starting at `last_scanned_index + 1` (the cursor
never sits below -1, so the `toNat` conversion is exact). -/
def run_revolution_step (fetch : Params → Option PyVal) (pm : PMState) :
    Except String PMState :=
  if pm.revolution.is_active = false then Except.ok pm
  else
    let full := pm.revolution.full_market_list
    let start_index := (pm.revolution.last_scanned_index + 1).toNat
    let end_index := min (start_index + SCAN_BATCH_SIZE) full.length
    let log_messages := ["Rozpoczynam partię od " ++ toString start_index ++
      " do " ++ toString (end_index - 1) ++ "..."]
    revBatchLoop fetch pm full (List.range' start_index (end_index - start_index))
      log_messages []

/-- C7 (code bug): on every active scan state, `run_revolution_step` raises
`AttributeError` instead of saving progress — both its save sites call
`portfolio_manager.save_progress`, a method `PortfolioManager` does not
define (it defines `save_revolution_progress`, which moreover takes no
log-lines argument).  `saveProgress` is therefore never called, no progress
is persisted, and `complete_revolution` is never reached. -/
theorem run_revolution_step_crashes_c7 (fetch : Params → Option PyVal)
    (pm : PMState) (hactive : pm.revolution.is_active = true) :
    run_revolution_step fetch pm = Except.error saveProgressAttrError := by
  have hloop : ∀ (idxs : List ℕ) (logs : List String) (cands : List Candidate),
      revBatchLoop fetch pm pm.revolution.full_market_list idxs logs cands =
        Except.error saveProgressAttrError := by
    intro idxs
    induction idxs with
    | nil => intro logs cands; rfl
    | cons i rest ih =>
      intro logs cands
      simp only [revBatchLoop, hactive]
      exact ih _ _
  simp only [run_revolution_step, hactive]
  simp only [Bool.true_eq_false, if_false]
  exact hloop _ _ _

/-- An active scan state over a one-ticker universe, before any progress. -/
def pmC7 : PMState := ⟨[], [], [], ⟨true, 1, -1, ["AAA"], [], []⟩⟩

/-- Witness for C7 at the failing input: an active scan over `["AAA"]` with a
fetcher returning no data crashes with the `AttributeError`. -/
theorem run_revolution_step_crashes_c7_witness :
    run_revolution_step (fun _ => none) pmC7 =
      Except.error saveProgressAttrError :=
  run_revolution_step_crashes_c7 (fun _ => none) pmC7 rfl
